import Mathlib

/-!
Verification of the Checkstyle diagnostic-manager core
(`CheckstyleDiagnosticManager` in `checkstyleDiagnosticManager.ts`).

The manager tracks open Java documents (`syncedFiles` registry), keeps a
mirrored copy of each document for the remote checker (`FileSynchronizer`),
accumulates edited files into a pending set (`pendingDiagnostics`), and after
a 200 ms debounce quiet period drains the pending set: it flushes the
synchronizer and issues one remote check request per pending file
(`sendPendingDiagnostics`), reconciling the results into the diagnostics
store keyed by real document identity.

Document contents and check findings are abstracted as natural numbers:
the manager never inspects them, it only moves them between buffers,
mirrors, requests and the store.
-/

namespace Checkstyle

/-- Association-list lookup on string keys (models `Map.get` / first match). -/
def alookup {α : Type} (k : String) : List (String × α) → Option α
  | [] => none
  | e :: rest => if e.1 = k then some e.2 else alookup k rest

/-- Association-list removal of key `k` (models `Map.delete`). -/
def aerase {α : Type} (k : String) : List (String × α) → List (String × α)
  | [] => []
  | e :: rest => if e.1 = k then aerase k rest else e :: aerase k rest

/-- Association-list update: set key `k` to `v`, dropping any previous entry. -/
def aset {α : Type} (k : String) (v : α) (l : List (String × α)) : List (String × α) :=
  (k, v) :: aerase k l

/-- A `SyncedFile`: the real document identity (`realUri`, the absolute path)
and the mirrored-location identity (`syncUri`) used for the remote check
call.  Both are exposed as read-only facts by the source class. -/
structure SyncedFile where
  realUri : String
  syncUri : String
deriving DecidableEq, Repr

/-- Modelled from the spec: the mirrored location key the `FileSynchronizer`
(not under `src/`) derives for an open document; any derivation distinct
from the real path works for the claims, which only require that the two
identities are kept apart. -/
def syncUriOf (p : String) : String := "mirror:" ++ p

/-- Outcome of the remote check call
(`executeJavaLanguageServerCommand(CHECK_CODE_WITH_CHECKSTYLE, ...)`):
a list of findings, an absent result (`undefined`), or a thrown error. -/
inductive CheckOutcome where
  | success (results : List Nat)
  | noResult
  | error (e : Nat)
deriving DecidableEq, Repr

/-- One issued check request: the arguments the drain passes to the remote
call (`file.syncUri.toString()`, the configuration path, the properties)
plus the mirrored content the checker would read at that moment. -/
structure Request where
  syncUri : String
  configPath : String
  properties : Nat
  content : Nat
deriving DecidableEq, Repr

/-- External collaborators of the drain: `getCheckstyleConfigurationPath`,
`getCheckstyleProperties` (both keyed by the real identity) and the remote
checker itself. -/
structure Env where
  configPath : String → String
  properties : String → Nat
  check : Request → CheckOutcome

/-- The whole observable system state: the manager fields (`syncedFiles`,
`pendingDiagnostics`, the lodash debounce deadline), the synchronizer
mirrors and buffered changes, the two disposal flags, and the accumulated
observable effects (requests issued, log lines, handled errors, the
diagnostics store, status-bar refreshes). -/
structure Sys where
  registry : List (String × SyncedFile)
  pending : List SyncedFile
  mirror : List (String × Nat)
  dirty : List (String × Nat)
  deadline : Option Nat
  listenersDisposed : Bool
  syncDisposed : Bool
  requests : List Request
  log : List String
  errors : List Nat
  store : List (String × List Nat)
  statusShows : Nat
deriving DecidableEq, Repr

/-- The state right after `initialize`: empty registry, empty pending set,
no timer armed, nothing observed yet. -/
def initState : Sys :=
  { registry := [], pending := [], mirror := [], dirty := [], deadline := none,
    listenersDisposed := false, syncDisposed := false,
    requests := [], log := [], errors := [], store := [], statusShows := 0 }

/-- The log line emitted when the configuration path resolves empty
(source line 92). -/
def cfgSkipMsg : String := "Checkstyle configuration file not set yet, skip the check."

/-- The log line emitted when the remote call returns no result
(source line 100). -/
def noResultMsg : String := "Unable to get results from Language Server."

/-- Collector delete, `checkstyleDiagnosticCollector.delete(uri)` — Modelled from the spec:
the collector is not under `src/`; the spec describes the store as a map
from document identity to findings, mutated by delete and insert. -/
def collectorDelete (k : String) (store : List (String × List Nat)) :
    List (String × List Nat) :=
  aerase k store

/-- Collector insert, `checkstyleDiagnosticCollector.addDiagnostics(uri, results)` — Modelled
from the spec: inserts the findings for the identity into the store. -/
def addDiagnostics (k : String) (rs : List Nat) (store : List (String × List Nat)) :
    List (String × List Nat) :=
  (k, rs) :: store

/-- The reconciliation step the drain performs for a successful result:
delete the existing entry, then insert the new one (source lines 103-104). -/
def applyResults (k : String) (rs : List Nat) (store : List (String × List Nat)) :
    List (String × List Nat) :=
  addDiagnostics k rs (collectorDelete k store)

/-- Synchronizer flush, `FileSynchronizer.flush` — Modelled from the spec: applies every buffered
change to its mirrored location and clears the buffer; after disposal the
synchronizer no longer writes mirrors. -/
def flush (s : Sys) : Sys :=
  if s.syncDisposed then s
  else { s with mirror := s.dirty.foldl (fun m e => aset e.1 e.2 m) s.mirror,
                dirty := [] }

/-- Build the request for one file: the remote call carries the mirrored
identity `f.syncUri`, the resolved configuration path and the resolved
properties (source lines 97-98); the checker reads the mirrored content. -/
def mkRequest (env : Env) (mirror : List (String × Nat)) (f : SyncedFile)
    (config : String) : Request :=
  { syncUri := f.syncUri, configPath := config,
    properties := env.properties f.realUri,
    content := (alookup f.syncUri mirror).getD 0 }

/-- The `for` loop of `sendPendingDiagnostics` (source lines 89-109) over the
iteration list of the pending set.  Returns the updated system and whether
the loop ran to completion (`true`) or exited early through one of the two
`return` statements (`false`).  Note the two early exits abandon the whole
remaining list, and that the catch branch continues the loop. -/
def processFiles (env : Env) : List SyncedFile → Sys → Sys × Bool
  | [], s => (s, true)
  | f :: rest, s =>
    let config := env.configPath f.realUri
    if config = "" then
      ({ s with log := s.log ++ [cfgSkipMsg] }, false)
    else
      let req := mkRequest env s.mirror f config
      let s1 := { s with requests := s.requests ++ [req] }
      match env.check req with
      | .noResult => ({ s1 with log := s1.log ++ [noResultMsg] }, false)
      | .success rs =>
          processFiles env rest
            { s1 with store := applyResults f.realUri rs s1.store,
                      statusShows := s1.statusShows + 1 }
      | .error e =>
          processFiles env rest { s1 with errors := s1.errors ++ [e] }

/-- The drain, `sendPendingDiagnostics` (source lines 86-111): await the synchronizer
flush, loop over the pending files, and clear the pending set only if the
loop ran to completion — the early `return`s leave it untouched. -/
def sendPendingDiagnostics (env : Env) (s : Sys) : Sys :=
  let s1 := flush s
  let out := processFiles env s1.pending s1
  if out.2 then { out.1 with pending := [] } else out.1

/-- The fixed debounce quiet period (source line 31: `_.debounce(..., 200)`). -/
def quietPeriod : Nat := 200

/-- Editor lifecycle events plus the debounce-timer firing and disposal.
Events carry a timestamp where the debounce bookkeeping needs one.  Only
documents of the recognized kind (Java, `file` scheme) are modelled: the
source ignores all others at the top of `onDidOpenTextDocument`. -/
inductive Event where
  | openDoc (t : Nat) (path : String) (content : Nat)
  | changeDoc (t : Nat) (path : String) (content : Nat)
  | closeDoc (t : Nat) (path : String)
  | fireTimer (t : Nat)
  | disposeMgr
deriving DecidableEq, Repr

/-- Pending-set insertion, `Set.add`: insertion order, no duplicates. -/
def addPending (f : SyncedFile) (l : List SyncedFile) : List SyncedFile :=
  if f ∈ l then l else l ++ [f]

/-- The arming step, `requestDiagnostic` (source lines 81-84): add the file to the pending set
and call the debounced trigger, which restarts the quiet-period timer. -/
def requestDiagnostic (t : Nat) (f : SyncedFile) (s : Sys) : Sys :=
  { s with pending := addPending f s.pending,
           deadline := some (t + quietPeriod) }

/-- One event-loop step of the manager.  `openDoc`/`changeDoc`/`closeDoc` are
the three subscribed handlers (ignored once the listeners are disposed),
`fireTimer` is the debounce timer invoking `sendPendingDiagnostics` when its
deadline has passed, `disposeMgr` is `dispose` (source lines 38-43): it
disposes the synchronizer and the listeners — and nothing else. -/
def step (env : Env) (s : Sys) : Event → Sys
  | .openDoc t p c =>
      if s.listenersDisposed then s
      else if (alookup p s.registry).isSome then s
      else
        let f : SyncedFile := ⟨p, syncUriOf p⟩
        -- SyncedFile.open establishes the mirror with the current full text
        requestDiagnostic t f
          { s with registry := aset p f s.registry,
                   mirror := aset f.syncUri c s.mirror }
  | .changeDoc t p c =>
      if s.listenersDisposed then s
      else
        match alookup p s.registry with
        | none => s
        | some f =>
            -- SyncedFile.onContentChanged buffers the delta for the next flush
            requestDiagnostic t f { s with dirty := aset f.syncUri c s.dirty }
  | .closeDoc _ p =>
      if s.listenersDisposed then s
      else
        match alookup p s.registry with
        | none => s
        | some f =>
            -- source lines 71-79: delete from the registry and close the file;
            -- the pending set is not touched here
            { s with registry := aerase p s.registry,
                     mirror := aerase f.syncUri s.mirror,
                     dirty := aerase f.syncUri s.dirty }
  | .fireTimer t =>
      match s.deadline with
      | some d =>
          if d ≤ t then sendPendingDiagnostics env { s with deadline := none }
          else s
      | none => s
  | .disposeMgr =>
      { s with syncDisposed := true, mirror := [], dirty := [],
               listenersDisposed := true }

/-- Run a list of events through the manager. -/
def runEvents (env : Env) (s : Sys) : List Event → Sys
  | [] => s
  | e :: rest => runEvents env (step env s e) rest

/-!
Interleaved drain.  `sendPendingDiagnostics` awaits at the flush and at each
remote check call; change events may arrive at those suspension points.  The
source iterates the *live* `pendingDiagnostics` set (a JS `Set` iterator
visits entries inserted during iteration), so a mid-drain change event joins
the iteration of the current cycle, and the `clear()` after the loop wipes
the live set — including entries added mid-drain.  The following definitions
model the same loop with an explicit schedule of injected change events, one
batch per awaited check call. -/

/-- A change event arriving inside the drain, at a suspension point. -/
structure Inj where
  t : Nat
  path : String
  content : Nat
deriving DecidableEq, Repr

/-- Effect of a mid-drain change event: `onDidChangeTextDocument` buffers the
delta and calls `requestDiagnostic`, which adds the file to the live pending
set (visible to the ongoing iteration unless already visited or queued) and
restarts the debounce timer. -/
def injectChange (i : Inj) (visited toVisit : List SyncedFile) (s : Sys) :
    List SyncedFile × Sys :=
  if s.listenersDisposed then (toVisit, s)
  else
    match alookup i.path s.registry with
    | none => (toVisit, s)
    | some f =>
        let s1 := { s with dirty := aset f.syncUri i.content s.dirty,
                           deadline := some (i.t + quietPeriod) }
        if f ∈ visited ∨ f ∈ toVisit then (toVisit, s1)
        else (toVisit ++ [f], s1)

/-- Apply one batch of injected change events at a single suspension point. -/
def injectAll (l : List Inj) (visited toVisit : List SyncedFile) (s : Sys) :
    List SyncedFile × Sys :=
  l.foldl (fun acc i => injectChange i visited acc.1 acc.2) (toVisit, s)

/-- The drain loop once the injection schedule is exhausted: identical to
`processFiles`, but it writes the final value of the live pending set into
the state — the original on early exit, empty after `clear()` on
completion. -/
def processFilesV (env : Env) : List SyncedFile → List SyncedFile → Sys → Sys × Bool
  | _, [], s => ({ s with pending := [] }, true)
  | visited, f :: rest, s =>
    let config := env.configPath f.realUri
    if config = "" then
      ({ s with log := s.log ++ [cfgSkipMsg], pending := visited ++ f :: rest }, false)
    else
      let req := mkRequest env s.mirror f config
      let s1 := { s with requests := s.requests ++ [req] }
      match env.check req with
      | .noResult =>
          ({ s1 with log := s1.log ++ [noResultMsg], pending := visited ++ f :: rest }, false)
      | .success rs =>
          processFilesV env (visited ++ [f]) rest
            { s1 with store := applyResults f.realUri rs s1.store,
                      statusShows := s1.statusShows + 1 }
      | .error e =>
          processFilesV env (visited ++ [f]) rest { s1 with errors := s1.errors ++ [e] }

/-- The drain loop with injected events: each visited file consumes one
schedule entry, whose events arrive while the check call for that file is
awaited (after the request is issued, before the outcome is observed). -/
def drainVisit (env : Env) :
    List (List Inj) → List SyncedFile → List SyncedFile → Sys → Sys × Bool
  | [], visited, toVisit, s => processFilesV env visited toVisit s
  | _ :: _, _, [], s => ({ s with pending := [] }, true)
  | entry :: schedRest, visited, f :: rest, s =>
    let config := env.configPath f.realUri
    if config = "" then
      ({ s with log := s.log ++ [cfgSkipMsg], pending := visited ++ f :: rest }, false)
    else
      let req := mkRequest env s.mirror f config
      let s1 := { s with requests := s.requests ++ [req] }
      let inj := injectAll entry (visited ++ [f]) rest s1
      match env.check req with
      | .noResult =>
          ({ inj.2 with log := inj.2.log ++ [noResultMsg],
                        pending := visited ++ f :: inj.1 }, false)
      | .success rs =>
          drainVisit env schedRest (visited ++ [f]) inj.1
            { inj.2 with store := applyResults f.realUri rs inj.2.store,
                         statusShows := inj.2.statusShows + 1 }
      | .error e =>
          drainVisit env schedRest (visited ++ [f]) inj.1
            { inj.2 with errors := inj.2.errors ++ [e] }

/-- The drain with events injected at its suspension points:
`flushInj` arrives during the flush await, `sched` batch `i` arrives during
the check await of the `i`-th visited file. -/
def sendPendingDiagnosticsI (env : Env) (flushInj : List Inj)
    (sched : List (List Inj)) (s : Sys) : Sys × Bool :=
  let s1 := flush s
  let inj := injectAll flushInj [] s1.pending s1
  drainVisit env sched [] inj.1 inj.2

/-- The request list a drain cycle appends, as a function of the environment,
the post-flush mirror and the iterated pending list: every file up to and
including the first skipped one (empty configuration or no result) has its
request recorded — except the empty-configuration file, whose call is never
made. -/
def freshRequests (env : Env) (mirror : List (String × Nat)) :
    List SyncedFile → List Request
  | [] => []
  | f :: rest =>
    let config := env.configPath f.realUri
    if config = "" then []
    else
      let req := mkRequest env mirror f config
      match env.check req with
      | .noResult => [req]
      | .success _ => req :: freshRequests env mirror rest
      | .error _ => req :: freshRequests env mirror rest

/-- The document used by the concrete debounce scenarios. -/
def fileA : SyncedFile := ⟨"A.java", syncUriOf "A.java"⟩

/-- A second document used by the concrete scenarios. -/
def fileX : SyncedFile := ⟨"X.java", syncUriOf "X.java"⟩

/-- The burst of `n` edits to `A.java`: edit `i` happens at time `t i` with
content `c i`. -/
def editEvents (t c : Nat → Nat) : Nat → List Event
  | 0 => []
  | i + 1 => editEvents t c i ++ [Event.changeDoc (t (i + 1)) "A.java" (c (i + 1))]

/-- Open `A.java`, edit it `n` times, then let the debounce timer fire one
quiet period after the last edit. -/
def burstTrace (t c : Nat → Nat) (n : Nat) : List Event :=
  Event.openDoc (t 0) "A.java" (c 0) ::
    (editEvents t c n ++ [Event.fireTimer (t n + quietPeriod)])

/-- Closed form of the manager state after opening `A.java` and applying the
first `i` edits of a burst. -/
def afterEdits (t c : Nat → Nat) : Nat → Sys
  | 0 =>
    { initState with
        registry := [("A.java", fileA)], pending := [fileA],
        mirror := [(fileA.syncUri, c 0)],
        deadline := some (t 0 + quietPeriod) }
  | i + 1 =>
    { initState with
        registry := [("A.java", fileA)], pending := [fileA],
        mirror := [(fileA.syncUri, c 0)],
        dirty := [(fileA.syncUri, c (i + 1))],
        deadline := some (t (i + 1) + quietPeriod) }

/-! Helper lemmas. -/

theorem runEvents_append (env : Env) (s : Sys) (l1 l2 : List Event) :
    runEvents env s (l1 ++ l2) = runEvents env (runEvents env s l1) l2 := by
  induction l1 generalizing s with
  | nil => rfl
  | cons e rest ih => simpa [runEvents] using ih (step env s e)

theorem alookup_aerase {α : Type} (k k2 : String) (h : k2 ≠ k) :
    ∀ l : List (String × α), alookup k2 (aerase k l) = alookup k2 l := by
  intro l
  induction l with
  | nil => rfl
  | cons e rest ih =>
    by_cases he : e.1 = k
    · rw [aerase, if_pos he, ih, alookup, if_neg (by rw [he]; exact fun hh => h hh.symm)]
    · rw [aerase, if_neg he, alookup, alookup]
      by_cases he2 : e.1 = k2
      · rw [if_pos he2, if_pos he2]
      · rw [if_neg he2, if_neg he2, ih]

theorem flush_pending (s : Sys) : (flush s).pending = s.pending := by
  unfold flush
  split <;> rfl

theorem flush_syncDisposed (s : Sys) : (flush s).syncDisposed = s.syncDisposed := by
  unfold flush
  split <;> rfl

theorem flush_log (s : Sys) : (flush s).log = s.log := by
  unfold flush
  split <;> rfl

theorem flush_requests (s : Sys) : (flush s).requests = s.requests := by
  unfold flush
  split <;> rfl

theorem flush_of_dirty_nil (s : Sys) (h : s.dirty = []) : flush s = s := by
  unfold flush
  split
  · rfl
  · cases s with
    | mk r p m d dl ld sd rq lg er st ss =>
      cases h
      rfl

theorem flush_dirty (s : Sys) (h : s.syncDisposed = false) : (flush s).dirty = [] := by
  unfold flush
  rw [h]
  rfl

/-- The drain loop touches only the observable-output fields: the manager
and synchronizer state (pending set, mirrors, buffers, timer, registry,
disposal flags) is untouched by `processFiles`. -/
theorem processFiles_state (env : Env) :
    ∀ (fs : List SyncedFile) (s : Sys),
      (processFiles env fs s).1.pending = s.pending ∧
      (processFiles env fs s).1.mirror = s.mirror ∧
      (processFiles env fs s).1.dirty = s.dirty ∧
      (processFiles env fs s).1.deadline = s.deadline ∧
      (processFiles env fs s).1.registry = s.registry ∧
      (processFiles env fs s).1.syncDisposed = s.syncDisposed ∧
      (processFiles env fs s).1.listenersDisposed = s.listenersDisposed := by
  intro fs
  induction fs with
  | nil => intro s; exact ⟨rfl, rfl, rfl, rfl, rfl, rfl, rfl⟩
  | cons f rest ih =>
    intro s
    rw [processFiles]
    by_cases hc : env.configPath f.realUri = ""
    · simp only [hc, if_pos rfl]
      exact ⟨rfl, rfl, rfl, rfl, rfl, rfl, rfl⟩
    · simp only [if_neg hc]
      cases env.check (mkRequest env s.mirror f (env.configPath f.realUri)) with
      | noResult => exact ⟨rfl, rfl, rfl, rfl, rfl, rfl, rfl⟩
      | success rs => exact ih _
      | error e => exact ih _

/-- The requests a drain appends are exactly `freshRequests` of the iterated
list, computed over the fixed post-flush mirror. -/
theorem processFiles_requests (env : Env) :
    ∀ (fs : List SyncedFile) (s : Sys),
      (processFiles env fs s).1.requests = s.requests ++ freshRequests env s.mirror fs := by
  intro fs
  induction fs with
  | nil => intro s; simp [processFiles, freshRequests]
  | cons f rest ih =>
    intro s
    rw [processFiles, freshRequests]
    by_cases hc : env.configPath f.realUri = ""
    · simp [hc]
    · simp only [if_neg hc]
      cases hr : env.check (mkRequest env s.mirror f (env.configPath f.realUri)) with
      | noResult => simp
      | success rs => rw [ih]; simp
      | error e => rw [ih]; simp

/-- The drain loop exits early (`false`) exactly when it hits a file with an
empty configuration path or a no-result outcome; otherwise it completes. -/
theorem processFiles_pending_out (env : Env) (fs : List SyncedFile) (s : Sys) :
    (processFiles env fs s).1.pending = s.pending :=
  (processFiles_state env fs s).1

/-! Concrete environments and states used by counterexamples and witnesses. -/

/-- Every document configured, every check succeeds with findings `[1, 2]`. -/
def envAll : Env :=
  { configPath := fun _ => "cfg.xml", properties := fun _ => 7,
    check := fun _ => .success [1, 2] }

/-- Environment where `A.java` has no configuration yet, every other document does. -/
def envNoCfgA : Env :=
  { configPath := fun p => if p = "A.java" then "" else "cfg.xml",
    properties := fun _ => 0, check := fun _ => .success [] }

/-- The check call for the mirror of `A.java` returns no result, every other
check succeeds. -/
def envNoResA : Env :=
  { configPath := fun _ => "cfg.xml", properties := fun _ => 0,
    check := fun r => if r.syncUri = syncUriOf "A.java" then .noResult
                      else .success [3] }

/-- The check call for the mirror of `A.java` throws error `42`, every other
check succeeds. -/
def envErrA : Env :=
  { configPath := fun _ => "cfg.xml", properties := fun _ => 0,
    check := fun r => if r.syncUri = syncUriOf "A.java" then .error 42
                      else .success [3] }

/-- Another document used in the two-file cycles. -/
def fileB : SyncedFile := ⟨"B.java", syncUriOf "B.java"⟩

/-- The state with `A.java` and `B.java` open (in that iteration order of
the pending set) and the timer armed. -/
def stateAB (env : Env) : Sys :=
  runEvents env initState [.openDoc 0 "A.java" 1, .openDoc 1 "B.java" 2]

/-! Claim C1. -/

/-- Claim C1 (counterexample): open `A.java`, edit it, close it before the
quiet period elapses — contrary to the claim, the close handler leaves
the file in the pending set while deleting it from the registry, and the
timer firing afterwards issues one check request for the closed document,
not zero. -/
theorem closed_file_still_checked :
    (runEvents envAll initState
      [.openDoc 0 "A.java" 10, .changeDoc 5 "A.java" 11,
       .closeDoc 10 "A.java"]).pending = [fileA] ∧
    alookup "A.java" (runEvents envAll initState
      [.openDoc 0 "A.java" 10, .changeDoc 5 "A.java" 11,
       .closeDoc 10 "A.java"]).registry = none ∧
    (runEvents envAll initState
      [.openDoc 0 "A.java" 10, .changeDoc 5 "A.java" 11,
       .closeDoc 10 "A.java", .fireTimer 205]).requests.length = 1 := by
  decide

/-- Claim C1 (amended): the close handler (`onDidCloseTextDocument`) removes
the file from the `syncedFiles` registry and closes its mirror, but never
touches the pending set: for every state and every close event the pending
set is unchanged, so a pending file closed before the timer fires still
receives a check request when the drain runs. -/
theorem close_leaves_pending (env : Env) (s : Sys) (t : Nat) (p : String) :
    (step env s (.closeDoc t p)).pending = s.pending := by
  simp only [step]
  split
  · rfl
  · split <;> rfl

/-! Claim C2. -/

/-- Claim C2 (counterexample): with `A.java` unconfigured and `B.java`
configured, both pending in the same cycle, the drain emits the one
informational line and then issues zero check requests — `B.java` is not
processed, contrary to the claim that only the unconfigured file is
skipped. -/
theorem config_skip_blocks_other_files :
    (runEvents envNoCfgA initState
      [.openDoc 0 "A.java" 1, .openDoc 1 "B.java" 2, .fireTimer 300]).requests = [] ∧
    (runEvents envNoCfgA initState
      [.openDoc 0 "A.java" 1, .openDoc 1 "B.java" 2, .fireTimer 300]).log
        = [cfgSkipMsg] ∧
    (runEvents envNoCfgA initState
      [.openDoc 0 "A.java" 1, .openDoc 1 "B.java" 2, .fireTimer 300]).pending
        = [fileA, fileB] := by
  decide

/-- Claim C2 (amended): when the first file the drain reaches has an empty
configuration path, the whole remaining cycle is aborted by the early
`return`: exactly one informational log line is appended, no check request
is issued for that file nor for any file after it, and the pending set is
left unchanged. -/
theorem config_skip_aborts_cycle (env : Env) (s : Sys) (f : SyncedFile)
    (rest : List SyncedFile) (hp : s.pending = f :: rest)
    (hc : env.configPath f.realUri = "") :
    sendPendingDiagnostics env s
      = { flush s with log := (flush s).log ++ [cfgSkipMsg] } := by
  have h1 : (flush s).pending = f :: rest := by rw [flush_pending, hp]
  simp only [sendPendingDiagnostics, h1, processFiles]
  rw [if_pos hc]
  rfl

/-- Witness for `config_skip_aborts_cycle` at a concrete two-file state. -/
theorem config_skip_aborts_cycle_witness :
    sendPendingDiagnostics envNoCfgA (stateAB envNoCfgA)
      = { flush (stateAB envNoCfgA) with
            log := (flush (stateAB envNoCfgA)).log ++ [cfgSkipMsg] } :=
  config_skip_aborts_cycle envNoCfgA (stateAB envNoCfgA) fileA [fileB]
    (by decide) (by decide)

/-! Claim C4. -/

/-- Claim C4 (counterexample): after editing `A.java` and then disposing the
manager, the pending set still holds the file and the debounce deadline is
still armed; the already-scheduled debounce invocation then fires and the
drain still issues a check request — contrary to the claim that disposal
cancels the timer and leaves no pending work. -/
theorem dispose_leaves_armed_timer :
    (runEvents envAll initState
      [.openDoc 0 "A.java" 10, .changeDoc 5 "A.java" 11, .disposeMgr]).pending
        = [fileA] ∧
    (runEvents envAll initState
      [.openDoc 0 "A.java" 10, .changeDoc 5 "A.java" 11, .disposeMgr]).deadline
        = some 205 ∧
    (runEvents envAll initState
      [.openDoc 0 "A.java" 10, .changeDoc 5 "A.java" 11, .disposeMgr,
       .fireTimer 205]).requests.length = 1 := by
  decide

/-- Claim C4 (amended): `dispose` disposes the synchronizer (releasing the
mirrors) and the event listeners, so no later open/change/close event is
accepted — but it neither cancels an armed debounce timer nor clears the
pending set, both are left exactly as they were. -/
theorem dispose_behavior (env : Env) (s : Sys) (t1 t2 t3 : Nat) (p : String)
    (c : Nat) :
    (step env s .disposeMgr).pending = s.pending ∧
    (step env s .disposeMgr).deadline = s.deadline ∧
    (step env s .disposeMgr).syncDisposed = true ∧
    (step env s .disposeMgr).listenersDisposed = true ∧
    (step env s .disposeMgr).mirror = [] ∧
    step env (step env s .disposeMgr) (.openDoc t1 p c) = step env s .disposeMgr ∧
    step env (step env s .disposeMgr) (.changeDoc t2 p c) = step env s .disposeMgr ∧
    step env (step env s .disposeMgr) (.closeDoc t3 p) = step env s .disposeMgr := by
  refine ⟨rfl, rfl, rfl, rfl, rfl, ?_, ?_, ?_⟩ <;> simp [step]

/-! Claim C5. -/

/-- Claim C5 (counterexample): with the check for `A.java` returning no
result and `B.java` pending after it in the same cycle, the drain logs the
no-result line and returns: only `A.java` had a request issued, `B.java`
is never processed — contrary to the claim that the cycle continues for
the other files. -/
theorem noresult_blocks_other_files :
    (runEvents envNoResA initState
      [.openDoc 0 "A.java" 1, .openDoc 1 "B.java" 2, .fireTimer 300]).requests
        = [{ syncUri := syncUriOf "A.java", configPath := "cfg.xml",
             properties := 0, content := 1 }] ∧
    (runEvents envNoResA initState
      [.openDoc 0 "A.java" 1, .openDoc 1 "B.java" 2, .fireTimer 300]).log
        = [noResultMsg] ∧
    (runEvents envNoResA initState
      [.openDoc 0 "A.java" 1, .openDoc 1 "B.java" 2, .fireTimer 300]).pending
        = [fileA, fileB] := by
  decide

/-- Claim C5 (amended): when the remote check call for the first file the
drain reaches returns no result, the whole remaining cycle is aborted by
the early `return`: the request for that file was issued and the no-result
line logged, but no file after it is processed. -/
theorem noresult_aborts_cycle (env : Env) (f : SyncedFile)
    (rest : List SyncedFile) (s : Sys)
    (hc : env.configPath f.realUri ≠ "")
    (hr : env.check (mkRequest env s.mirror f (env.configPath f.realUri))
            = .noResult) :
    processFiles env (f :: rest) s
      = ({ s with
             requests := s.requests
               ++ [mkRequest env s.mirror f (env.configPath f.realUri)],
             log := s.log ++ [noResultMsg] }, false) := by
  simp only [processFiles]
  rw [if_neg hc, hr]

/-- Witness for `noresult_aborts_cycle` at a concrete two-file state. -/
theorem noresult_aborts_cycle_witness :
    processFiles envNoResA [fileA, fileB] initState
      = ({ initState with
             requests := initState.requests
               ++ [mkRequest envNoResA initState.mirror fileA
                     (envNoResA.configPath fileA.realUri)],
             log := initState.log ++ [noResultMsg] }, false) :=
  noresult_aborts_cycle envNoResA fileA [fileB] initState (by decide) (by decide)

/-! Claim C6. -/

/-- Claim C6 (confirmed): when the remote check call for a file throws, the
`catch` routes the error to the shared error handler and the loop simply
continues: processing `f :: rest` equals processing `rest` from the state
in which the request for `f` was issued and its error recorded — for every
remaining list `rest`, so a single-file remote-call failure never aborts
the cycle and the later files are still processed and reconciled. -/
theorem error_continues_cycle (env : Env) (f : SyncedFile)
    (rest : List SyncedFile) (s : Sys) (e : Nat)
    (hc : env.configPath f.realUri ≠ "")
    (hr : env.check (mkRequest env s.mirror f (env.configPath f.realUri))
            = .error e) :
    processFiles env (f :: rest) s
      = processFiles env rest
          { s with
              requests := s.requests
                ++ [mkRequest env s.mirror f (env.configPath f.realUri)],
              errors := s.errors ++ [e] } := by
  simp only [processFiles]
  rw [if_neg hc, hr]

/-- Witness for `error_continues_cycle`: the check for `A.java` throws `42`
and the cycle continues with `X.java`. -/
theorem error_continues_cycle_witness :
    processFiles envErrA [fileA, fileX] initState
      = processFiles envErrA [fileX]
          { initState with
              requests := initState.requests
                ++ [mkRequest envErrA initState.mirror fileA
                      (envErrA.configPath fileA.realUri)],
              errors := initState.errors ++ [42] } :=
  error_continues_cycle envErrA fileA [fileX] initState 42 (by decide) (by decide)

/-! Claim C7. -/

/-- Claim C7 (confirmed): applying results for the same identity twice —
each application being the delete-then-insert reconciliation of the drain —
leaves the store holding exactly the second result set for that identity,
and leaves the entry of every other identity untouched. -/
theorem apply_replace_semantics (k : String) (r1 r2 : List Nat)
    (store : List (String × List Nat)) :
    alookup k (applyResults k r2 (applyResults k r1 store)) = some r2 ∧
    ∀ k2, k2 ≠ k →
      alookup k2 (applyResults k r2 (applyResults k r1 store))
        = alookup k2 store := by
  constructor
  · simp [applyResults, addDiagnostics, collectorDelete, alookup]
  · intro k2 hk
    simp only [applyResults, addDiagnostics, collectorDelete]
    rw [alookup, if_neg (fun hh => hk hh.symm), alookup_aerase k k2 hk,
        alookup, if_neg (fun hh => hk hh.symm), alookup_aerase k k2 hk]

/-- Witness for `apply_replace_semantics` at concrete identities. -/
theorem apply_replace_semantics_witness :
    alookup "a" (applyResults "a" [2] (applyResults "a" [1] [("b", [3])]))
      = some [2] ∧
    alookup "b" (applyResults "a" [2] (applyResults "a" [1] [("b", [3])]))
      = alookup "b" [("b", [3])] :=
  ⟨(apply_replace_semantics "a" [1] [2] [("b", [3])]).1,
   (apply_replace_semantics "a" [1] [2] [("b", [3])]).2 "b" (by decide)⟩

/-! Claim C9. -/

/-- Every request present after a drain loop was either already issued or
carries the mirrored identity of one of the iterated files. -/
theorem processFiles_request_origin (env : Env) :
    ∀ (fs : List SyncedFile) (s : Sys) (r : Request),
      r ∈ (processFiles env fs s).1.requests →
      r ∈ s.requests ∨ ∃ f, f ∈ fs ∧ r.syncUri = f.syncUri := by
  intro fs
  induction fs with
  | nil => intro s r hr; exact Or.inl hr
  | cons f rest ih =>
    intro s r hr
    simp only [processFiles] at hr
    by_cases hc : env.configPath f.realUri = ""
    · rw [if_pos hc] at hr
      exact Or.inl hr
    · rw [if_neg hc] at hr
      cases hck : env.check (mkRequest env s.mirror f (env.configPath f.realUri)) with
      | noResult =>
          rw [hck] at hr
          rcases List.mem_append.mp hr with h | h
          · exact Or.inl h
          · refine Or.inr ⟨f, List.mem_cons_self f rest, ?_⟩
            rw [List.mem_singleton.mp h]
            rfl
      | success rs =>
          rw [hck] at hr
          rcases ih _ r hr with h | ⟨g, hg, hgs⟩
          · rcases List.mem_append.mp h with h2 | h2
            · exact Or.inl h2
            · refine Or.inr ⟨f, List.mem_cons_self f rest, ?_⟩
              rw [List.mem_singleton.mp h2]
              rfl
          · exact Or.inr ⟨g, List.mem_cons_of_mem f hg, hgs⟩
      | error e =>
          rw [hck] at hr
          rcases ih _ r hr with h | ⟨g, hg, hgs⟩
          · rcases List.mem_append.mp h with h2 | h2
            · exact Or.inl h2
            · refine Or.inr ⟨f, List.mem_cons_self f rest, ?_⟩
              rw [List.mem_singleton.mp h2]
              rfl
          · exact Or.inr ⟨g, List.mem_cons_of_mem f hg, hgs⟩

/-- Every identity keyed in the store after a drain loop was either already
there or is the real identity of one of the iterated files. -/
theorem processFiles_store_origin (env : Env) :
    ∀ (fs : List SyncedFile) (s : Sys) (k : String) (rs : List Nat),
      alookup k (processFiles env fs s).1.store = some rs →
      (∃ rs2, alookup k s.store = some rs2) ∨ ∃ f, f ∈ fs ∧ k = f.realUri := by
  intro fs
  induction fs with
  | nil => intro s k rs hk; exact Or.inl ⟨rs, hk⟩
  | cons f rest ih =>
    intro s k rs hk
    simp only [processFiles] at hk
    by_cases hc : env.configPath f.realUri = ""
    · rw [if_pos hc] at hk
      exact Or.inl ⟨rs, hk⟩
    · rw [if_neg hc] at hk
      cases hck : env.check (mkRequest env s.mirror f (env.configPath f.realUri)) with
      | noResult =>
          rw [hck] at hk
          exact Or.inl ⟨rs, hk⟩
      | success rs0 =>
          rw [hck] at hk
          rcases ih _ k rs hk with ⟨rs2, h⟩ | ⟨g, hg, hgs⟩
          · by_cases hkf : k = f.realUri
            · exact Or.inr ⟨f, List.mem_cons_self f rest, hkf⟩
            · simp only [applyResults, addDiagnostics, collectorDelete] at h
              rw [alookup, if_neg (fun hh => hkf hh.symm),
                  alookup_aerase f.realUri k hkf] at h
              exact Or.inl ⟨rs2, h⟩
          · exact Or.inr ⟨g, List.mem_cons_of_mem f hg, hgs⟩
      | error e =>
          rw [hck] at hk
          rcases ih _ k rs hk with ⟨rs2, h⟩ | ⟨g, hg, hgs⟩
          · exact Or.inl ⟨rs2, h⟩
          · exact Or.inr ⟨g, List.mem_cons_of_mem f hg, hgs⟩

/-- Claim C9 (confirmed): starting a drain with no requests issued and an
empty store, every check request the drain issues carries the mirrored
identity (`syncUri`) of one of the pending files, and every identity the
diagnostics store ends up keyed by is the real identity (`realUri`) of one
of the pending files — the remote call never sees the real path and the
store never sees the mirrored one; the translation happens exactly at the
reconciliation step. -/
theorem requests_sync_store_real (env : Env) (fs : List SyncedFile) (s : Sys)
    (h1 : s.requests = []) (h2 : s.store = []) :
    (∀ r, r ∈ (processFiles env fs s).1.requests →
      ∃ f, f ∈ fs ∧ r.syncUri = f.syncUri) ∧
    (∀ k rs, alookup k (processFiles env fs s).1.store = some rs →
      ∃ f, f ∈ fs ∧ k = f.realUri) := by
  constructor
  · intro r hr
    rcases processFiles_request_origin env fs s r hr with h | h
    · rw [h1] at h
      cases h
    · exact h
  · intro k rs hk
    rcases processFiles_store_origin env fs s k rs hk with ⟨rs2, h⟩ | h
    · rw [h2] at h
      simp [alookup] at h
    · exact h

/-- Witness for `requests_sync_store_real`: the one-file drain stores its
findings under the real identity `A.java`. -/
theorem requests_sync_store_real_witness :
    ∃ f, f ∈ [fileA] ∧ "A.java" = f.realUri :=
  (requests_sync_store_real envAll [fileA] initState rfl rfl).2
    "A.java" [1, 2] (by decide)

/-! Claim C10. -/

/-- The requests appended by one full `sendPendingDiagnostics` call are
`freshRequests` over the post-flush mirror and pending list. -/
theorem sendPending_requests (env : Env) (s : Sys) :
    (sendPendingDiagnostics env s).requests
      = s.requests ++ freshRequests env (flush s).mirror (flush s).pending := by
  have hr := processFiles_requests env (flush s).pending (flush s)
  rw [flush_requests] at hr
  simp only [sendPendingDiagnostics]
  split
  · exact hr
  · exact hr

/-- Claim C10 (confirmed): when a drain cycle exits early (first empty
configuration or first no-result), the pending set is left exactly as it
was — no file processed so far is removed — and the next cycle re-issues
exactly the same request sequence again, re-checking every file the
aborted cycle had already processed. -/
theorem early_exit_preserves_pending (env : Env) (s : Sys)
    (h : (processFiles env (flush s).pending (flush s)).2 = false) :
    (sendPendingDiagnostics env s).pending = s.pending ∧
    (sendPendingDiagnostics env s).requests
      = s.requests ++ freshRequests env (flush s).mirror s.pending ∧
    (sendPendingDiagnostics env (sendPendingDiagnostics env s)).requests
      = (sendPendingDiagnostics env s).requests
          ++ freshRequests env (flush s).mirror s.pending := by
  have hpend : (sendPendingDiagnostics env s).pending = s.pending := by
    simp only [sendPendingDiagnostics]
    rw [if_neg (by rw [h]; exact Bool.false_ne_true)]
    rw [processFiles_pending_out, flush_pending]
  have hmain : sendPendingDiagnostics env s
      = (processFiles env (flush s).pending (flush s)).1 := by
    simp only [sendPendingDiagnostics]
    rw [if_neg (by rw [h]; exact Bool.false_ne_true)]
  have hflush2 : flush (sendPendingDiagnostics env s) = sendPendingDiagnostics env s := by
    by_cases hsd : s.syncDisposed
    · have hd : (sendPendingDiagnostics env s).syncDisposed = true := by
        rw [hmain, (processFiles_state env _ _).2.2.2.2.2.1, flush_syncDisposed, hsd]
      unfold flush
      rw [if_pos hd]
    · refine flush_of_dirty_nil _ ?_
      rw [hmain, (processFiles_state env _ _).2.2.1,
          flush_dirty s (Bool.not_eq_true s.syncDisposed ▸ hsd)]
  have hmir : (sendPendingDiagnostics env s).mirror = (flush s).mirror := by
    rw [hmain, (processFiles_state env _ _).2.1]
  refine ⟨hpend, ?_, ?_⟩
  · rw [sendPending_requests, flush_pending]
  · rw [sendPending_requests env (sendPendingDiagnostics env s), hflush2, hmir, hpend]

/-- Witness for `early_exit_preserves_pending`: the unconfigured-file cycle
leaves both pending files in place. -/
theorem early_exit_preserves_pending_witness :
    (sendPendingDiagnostics envNoCfgA (stateAB envNoCfgA)).pending
      = (stateAB envNoCfgA).pending :=
  (early_exit_preserves_pending envNoCfgA (stateAB envNoCfgA) (by decide)).1

/-! Claim C8. -/

/-- Closed form of the burst prefix: opening `A.java` and applying the
first `i` edits yields exactly `afterEdits t c i`. -/
theorem runEvents_editsClosedForm (env : Env) (t c : Nat → Nat) :
    ∀ i : Nat,
      runEvents env initState
          (Event.openDoc (t 0) "A.java" (c 0) :: editEvents t c i)
        = afterEdits t c i := by
  intro i
  induction i with
  | zero => rfl
  | succ i ih =>
      rw [editEvents, ← List.cons_append, runEvents_append, ih]
      show step env (afterEdits t c i)
          (.changeDoc (t (i + 1)) "A.java" (c (i + 1))) = afterEdits t c (i + 1)
      cases i <;> rfl

/-- A drain over a single pending file with a resolvable configuration
issues exactly one request, carrying the mirrored identity of the file and the
post-flush mirrored content — whatever the outcome of the check call. -/
theorem drain_one_file_requests (env : Env) (s : Sys) (f : SyncedFile) (v : Nat)
    (hp : s.pending = [f])
    (hreq : s.requests = [])
    (hm : alookup f.syncUri (flush s).mirror = some v)
    (hcfg : env.configPath f.realUri ≠ "") :
    (sendPendingDiagnostics env s).requests
      = [{ syncUri := f.syncUri, configPath := env.configPath f.realUri,
           properties := env.properties f.realUri, content := v }] := by
  rw [sendPending_requests, hreq, flush_pending, hp]
  simp only [freshRequests, if_neg hcfg, mkRequest, hm, Option.getD_some]
  cases env.check
      { syncUri := f.syncUri, configPath := env.configPath f.realUri,
        properties := env.properties f.realUri, content := v } <;>
    simp [freshRequests]

/-- Claim C8 (confirmed): for a burst of `n ≥ 1` edits to `A.java` with
consecutive edits less than the quiet period apart, (1) the trace that lets
the timer fire one quiet period after the last edit issues exactly one
check request, carrying the content of the last edit; (2) after each edit
the deadline is the time of that edit plus the quiet period — every edit
restarts the timer; (3) between two consecutive edits the timer can never
fire: a `fireTimer` before the next edit is a no-op, so only a full quiet
period of silence, not wall-clock time since the first edit, triggers the
drain. -/
theorem debounce_coalescing (env : Env) (t c : Nat → Nat) (n : Nat)
    (hn : 1 ≤ n)
    (hgap : ∀ i, i < n → t (i + 1) < t i + quietPeriod)
    (hcfg : env.configPath "A.java" ≠ "") :
    (runEvents env initState (burstTrace t c n)).requests
      = [{ syncUri := syncUriOf "A.java",
           configPath := env.configPath "A.java",
           properties := env.properties "A.java", content := c n }] ∧
    (∀ i, i ≤ n →
      (runEvents env initState
          (Event.openDoc (t 0) "A.java" (c 0) :: editEvents t c i)).deadline
        = some (t i + quietPeriod)) ∧
    (∀ i, i < n → ∀ u, u < t (i + 1) →
      step env
          (runEvents env initState
            (Event.openDoc (t 0) "A.java" (c 0) :: editEvents t c i))
          (.fireTimer u)
        = runEvents env initState
            (Event.openDoc (t 0) "A.java" (c 0) :: editEvents t c i)) := by
  refine ⟨?_, ?_, ?_⟩
  · obtain ⟨m, rfl⟩ : ∃ m, n = m + 1 := ⟨n - 1, by omega⟩
    rw [burstTrace, ← List.cons_append, runEvents_append,
        runEvents_editsClosedForm env t c (m + 1)]
    show (step env (afterEdits t c (m + 1))
        (.fireTimer (t (m + 1) + quietPeriod))).requests = _
    simp only [step, afterEdits]
    rw [if_pos (Nat.le_refl _)]
    exact drain_one_file_requests env _ fileA (c (m + 1)) rfl rfl rfl hcfg
  · intro i hi
    rw [runEvents_editsClosedForm env t c i]
    cases i <;> rfl
  · intro i hi u hu
    have hg := hgap i hi
    rw [runEvents_editsClosedForm env t c i]
    cases i with
    | zero =>
        simp only [step, afterEdits]
        rw [if_neg (by omega)]
    | succ j =>
        simp only [step, afterEdits]
        rw [if_neg (by omega)]

/-- Witness for `debounce_coalescing`: two edits 100 ms apart produce one
request carrying the content of the second edit. -/
theorem debounce_coalescing_witness :
    (runEvents envAll initState
        (burstTrace (fun i => 100 * i) (fun i => i) 2)).requests
      = [{ syncUri := syncUriOf "A.java", configPath := "cfg.xml",
           properties := 7, content := 2 }] :=
  (debounce_coalescing envAll (fun i => 100 * i) (fun i => i) 2 (by omega)
    (fun i _ => by show 100 * (i + 1) < 100 * i + 200; omega) (by decide)).1

/-! Claim C3. -/

/-- The C3 scenario start: `X.java` opened and already checked in an
earlier cycle, then `A.java` opened at time 300, arming the timer for
time 500 with pending set `[fileA]`. -/
def c3Start : Sys :=
  runEvents envAll initState
    [.openDoc 0 "X.java" 20, .fireTimer 200, .openDoc 300 "A.java" 10]

/-- The timer fires at 500 and the drain runs with one mid-drain event:
while the check call for `A.java` is awaited, `X.java` is edited at time
505 with new content `x2`. -/
def c3Drain (x2 : Nat) : Sys × Bool :=
  sendPendingDiagnosticsI envAll [] [[⟨505, "X.java", x2⟩]]
    { c3Start with deadline := none }

/-- The debounce cycle re-armed by the mid-drain edit fires at 705. -/
def c3Final (x2 : Nat) : Sys :=
  step envAll (c3Drain x2).1 (.fireTimer 705)

/-- Claim C3 (counterexample): the claim says an edit arriving during the
drain lands in a fresh pending set and is processed by a new cycle.  In
the code the mid-drain edit of `X.java` (new content 99) instead joins the
live set being iterated: it is processed in the *same* cycle, with the
stale pre-edit mirror content 20 (third request below), the end-of-drain
`clear()` then empties the pending set, and the re-armed cycle at 705 —
the "new cycle" the claim promises — finds an empty pending set and issues
no request at all: the post-edit state is never checked. -/
theorem middrain_edit_joins_live_set :
    (c3Drain 99).1.pending = [] ∧
    (c3Drain 99).1.deadline = some 705 ∧
    (c3Drain 99).1.requests
      = [{ syncUri := syncUriOf "X.java", configPath := "cfg.xml",
           properties := 7, content := 20 },
         { syncUri := syncUriOf "A.java", configPath := "cfg.xml",
           properties := 7, content := 10 },
         { syncUri := syncUriOf "X.java", configPath := "cfg.xml",
           properties := 7, content := 20 }] ∧
    (c3Final 99).requests = (c3Drain 99).1.requests := by
  decide

/-- Claim C3 (amended): the pending set is not snapshotted before the drain
awaits; the loop iterates the live set and `clear()` runs only after the
loop.  For every mid-drain edit content `x2`: the edit joins the current
cycle and is checked with the stale mirror content (20, not `x2`), the
completed drain leaves an empty pending set although it re-armed the
timer, and the new cycle therefore issues no further request — no request
ever carries the post-edit content. -/
theorem drain_clear_after_loop (x2 : Nat) :
    (c3Drain x2).1.pending = [] ∧
    (c3Drain x2).1.deadline = some 705 ∧
    (c3Drain x2).1.requests
      = [{ syncUri := syncUriOf "X.java", configPath := "cfg.xml",
           properties := 7, content := 20 },
         { syncUri := syncUriOf "A.java", configPath := "cfg.xml",
           properties := 7, content := 10 },
         { syncUri := syncUriOf "X.java", configPath := "cfg.xml",
           properties := 7, content := 20 }] ∧
    (c3Final x2).requests = (c3Drain x2).1.requests ∧
    (c3Final x2).mirror = [(syncUriOf "X.java", x2), (syncUriOf "A.java", 10)] := by
  exact ⟨rfl, rfl, rfl, rfl, rfl⟩

end Checkstyle
